import Mathlib

/-!
Verification development for `water_consumption_bot.py`: a shallow embedding
of the bot's record store, leaderboard aggregation (the SQL query
`SELECT username, SUM(amount) ... WHERE date BETWEEN ? AND ? GROUP BY user_id
ORDER BY total DESC`), window computation, message formatting, `/log`
argument parsing, the inline-button handler branches, and startup logic.

Modelling conventions:
* SQLite `REAL` amounts and totals are modelled as exact rationals (`ℚ`);
  IEEE-754 rounding of binary64 arithmetic is abstracted away.
* Timestamps are integers counting microseconds (the resolution of Python
  `datetime`) since an epoch chosen to fall on a Monday 00:00:00, so that
  Python's `date.weekday()` (Monday = 0) becomes `day % 7` (`/` and `%` on
  `Int` are Euclidean, i.e. floor-like for positive divisors, matching
  Python's date arithmetic for all timestamps).  SQLite compares the stored
  ISO-formatted timestamp strings lexicographically, which coincides with
  chronological order of these microsecond counts.
* `datetime.datetime.now()` returns naive host-local time (the monkey patches
  in the source only affect APScheduler and tzlocal, not `datetime`); it is
  modelled as `localNow utc off = utc + off`, `off` being the host UTC offset.
* Python `float(...)` parsing of a string is modelled on ASCII literals:
  optional sign, digits with medial underscores, optional decimal point and
  fraction, optional exponent, and the special names inf / infinity / nan in
  any letter case.  The numeric value is kept exact; binary64
  rounding/overflow to infinity and non-ASCII unicode digits are abstracted.
* Whitespace stripping by `float` is omitted: `context.args` entries and
  callback-data tokens are produced by splitting on whitespace / fixed
  callback strings and never contain whitespace.
-/

/-! ### Time model (microseconds; epoch on a Monday 00:00:00) -/

/-- Number of microseconds in a day. -/
def usPerDay : Int := 86400000000

/-- Day index of a timestamp, as in `datetime.datetime.now().date()`. -/
def dateOf (t : Int) : Int := t / usPerDay

/-- Python's `date.weekday()`: Monday = 0, ..., Sunday = 6 (epoch is a Monday). -/
def weekday (d : Int) : Int := d % 7

/-- The timestamp `datetime.combine(d, time.min)`, i.e. day `d` at 00:00:00.000000. -/
def dayStartUs (d : Int) : Int := d * usPerDay

/-- The timestamp `datetime.combine(d, time.max)`, i.e. day `d` at 23:59:59.999999. -/
def dayEndUs (d : Int) : Int := d * usPerDay + (usPerDay - 1)

/-- Lower bound `start_day` used by the daily leaderboard. -/
def dailyLo (now : Int) : Int := dayStartUs (dateOf now)

/-- Upper bound `end_day` used by the daily leaderboard. -/
def dailyHi (now : Int) : Int := dayEndUs (dateOf now)

/-- Lower bound `start_week = combine(today - timedelta(days=today.weekday()), time.min)`. -/
def weeklyLo (now : Int) : Int := dayStartUs (dateOf now - weekday (dateOf now))

/-- Upper bound `end_week = combine(today, time.max)`. -/
def weeklyHi (now : Int) : Int := dayEndUs (dateOf now)

/-! ### The `consumption` table and the leaderboard query -/

/-- One row of the `consumption` table:
`id INTEGER PRIMARY KEY AUTOINCREMENT, user_id INTEGER, username TEXT,
amount REAL, date TIMESTAMP`. -/
structure ConsumptionRecord where
  id : Nat
  user_id : Int
  username : String
  amount : ℚ
  date : Int
deriving DecidableEq

/-- One output row of the leaderboard query, keeping the grouping key:
`SELECT username, SUM(amount) as total ... GROUP BY user_id`. -/
structure LBEntry where
  user_id : Int
  username : String
  total : ℚ
deriving DecidableEq

/-- The `WHERE date BETWEEN ? AND ?` predicate (SQLite `BETWEEN` is inclusive
at both ends). -/
def inWindow (lo hi t : Int) : Bool := decide (lo ≤ t) && decide (t ≤ hi)

/-- Rows of the table selected by `WHERE date BETWEEN lo AND hi`. -/
def windowRecords (db : List ConsumptionRecord) (lo hi : Int) : List ConsumptionRecord :=
  db.filter (fun r => inWindow lo hi r.date)

/-- Fold one record into the per-`user_id` groups: add its amount to the
existing group for its `user_id`, or open a new group carrying the record's
`username` (SQLite picks the bare `username` column from some row of the
group; the model picks the first). -/
def addToGroup : List LBEntry → ConsumptionRecord → List LBEntry
  | [], r => [⟨r.user_id, r.username, r.amount⟩]
  | e :: es, r =>
      if e.user_id = r.user_id then ⟨e.user_id, e.username, e.total + r.amount⟩ :: es
      else e :: addToGroup es r

/-- GROUP BY `user_id` with SUM(`amount`). -/
def groupByUser (rs : List ConsumptionRecord) : List LBEntry :=
  rs.foldl addToGroup []

/-- The `ORDER BY total DESC` comparison: later rows have no larger total. -/
def byTotalDesc (a b : LBEntry) : Prop := b.total ≤ a.total

instance : DecidableRel byTotalDesc :=
  fun a b => inferInstanceAs (Decidable (b.total ≤ a.total))

instance : IsTotal LBEntry byTotalDesc :=
  ⟨fun a b => le_total b.total a.total⟩

instance : IsTrans LBEntry byTotalDesc :=
  ⟨fun _ _ _ h1 h2 => le_trans h2 h1⟩

/-- The whole leaderboard query:
`SELECT username, SUM(amount) as total FROM consumption
WHERE date BETWEEN lo AND hi GROUP BY user_id ORDER BY total DESC`
(ties between equal totals are in no specified order; the model keeps the
stable insertion-sort order). -/
def sqlLeaderboard (db : List ConsumptionRecord) (lo hi : Int) : List LBEntry :=
  List.insertionSort byTotalDesc (groupByUser (windowRecords db lo hi))

/-- Conditional sum of the `amount`s of the records of user `u`. -/
def sumAmounts (u : Int) : List ConsumptionRecord → ℚ
  | [] => 0
  | r :: rs => (if r.user_id = u then r.amount else 0) + sumAmounts u rs

/-- Conditional sum of the `total`s of the group entries of user `u`. -/
def totalOf (u : Int) : List LBEntry → ℚ
  | [] => 0
  | e :: es => (if e.user_id = u then e.total else 0) + totalOf u es

/-! ### Message formatting -/

/-- Decimal rendering of the natural number `n / 10^k` with `k` fractional
digits (helper for `showAmount`). -/
def decString (n : Nat) (k : Nat) : String :=
  if k = 0 then toString n ++ ".0"
  else
    let s := toString n
    let s := if s.length ≤ k then String.mk (List.replicate (k + 1 - s.length) '0') ++ s else s
    s.take (s.length - k) ++ "." ++ s.drop (s.length - k)

/-- Rendering of a rational as Python renders the corresponding float in an
f-string (`0.75`, `-1.0`, ...).  Python's shortest-round-trip binary64 `repr`
is abstracted to the exact decimal expansion; rationals with no finite
decimal expansion (which never arise from float data) fall back to a
fraction. -/
def showAmount (q : ℚ) : String :=
  let sign := if q < 0 then "-" else ""
  let a := |q|
  match (List.range 65).find? (fun k => (a * 10 ^ k).den == 1) with
  | some k => sign ++ decString (a * 10 ^ k).num.toNat k
  | none => sign ++ toString a.num ++ "/" ++ toString a.den

/-- One leaderboard line, `f"{rank}. {username}: {total} liters\n"`. -/
def lineFor (rank : Nat) (e : LBEntry) : String :=
  toString rank ++ ". " ++ e.username ++ ": " ++ showAmount e.total ++ " liters\n"

/-- The `for rank, (username, total) in enumerate(results, start=1)` loop
appending one line per entry. -/
def lbLines : Nat → List LBEntry → String
  | _, [] => ""
  | rank, e :: rest => lineFor rank e ++ lbLines (rank + 1) rest

/-- Concatenation of a list of strings. -/
def strConcat : List String → String
  | [] => ""
  | s :: l => s ++ strConcat l

/-- The presentation formatter inlined at each leaderboard reply site:
a header followed by numbered lines when there are results, a fixed
nothing-logged sentence otherwise. -/
def renderBoard (results : List LBEntry) (header emptyMsg : String) : String :=
  if results = [] then emptyMsg else header ++ lbLines 1 results

/-! ### Leaderboard handlers (command path and button path) -/

/-- Body of the `/leaderboard_daily` command handler (the text it replies). -/
def leaderboard_daily (db : List ConsumptionRecord) (now : Int) : String :=
  let today := dateOf now
  let start_day := dayStartUs today
  let end_day := dayEndUs today
  renderBoard (sqlLeaderboard db start_day end_day)
    "Daily Leaderboard:\n" "No water consumption logged today."

/-- Body of the `/leaderboard_weekly` command handler (the text it replies). -/
def leaderboard_weekly (db : List ConsumptionRecord) (now : Int) : String :=
  let today := dateOf now
  let start_of_week := today - weekday today
  let start_week := dayStartUs start_of_week
  let end_week := dayEndUs today
  renderBoard (sqlLeaderboard db start_week end_week)
    "Weekly Leaderboard (since Monday):\n" "No water consumption logged this week."

/-- Body of the `lb_daily` branch of `button_handler` (the text it edits in). -/
def button_lb_daily (db : List ConsumptionRecord) (now : Int) : String :=
  let today := dateOf now
  let start_day := dayStartUs today
  let end_day := dayEndUs today
  renderBoard (sqlLeaderboard db start_day end_day)
    "Daily Leaderboard:\n" "No water consumption logged today."

/-- Body of the `lb_weekly` branch of `button_handler` (the text it edits in). -/
def button_lb_weekly (db : List ConsumptionRecord) (now : Int) : String :=
  let today := dateOf now
  let start_of_week := today - weekday today
  let start_week := dayStartUs start_of_week
  let end_week := dayEndUs today
  renderBoard (sqlLeaderboard db start_week end_week)
    "Weekly Leaderboard (since Monday):\n" "No water consumption logged this week."

/-! ### Python `float(...)` parsing -/

/-- Result of Python `float(string)`: a finite value, a signed infinity, or
NaN. -/
inductive PyVal where
  | fin (q : ℚ)
  | infv (neg : Bool)
  | nan
deriving DecidableEq

/-- Scan a run of decimal digits with medial underscores (Python number
grammar: an underscore must sit between two digits).  Returns the value of
the run, the number of digits consumed, and the unconsumed rest. -/
def digitsAux : Nat → Nat → List Char → Nat × Nat × List Char
  | acc, n, [] => (acc, n, [])
  | acc, n, [c] =>
      if c.isDigit then (acc * 10 + (c.toNat - 48), n + 1, []) else (acc, n, [c])
  | acc, n, c :: d :: cs =>
      if c.isDigit then digitsAux (acc * 10 + (c.toNat - 48)) (n + 1) (d :: cs)
      else if c = '_' ∧ d.isDigit ∧ 0 < n then
        digitsAux (acc * 10 + (d.toNat - 48)) (n + 1) cs
      else (acc, n, c :: d :: cs)

/-- Assemble the parsed parts into an exact value:
`(iv + fv / 10^fc) * 10^(±ev)` with the overall sign. -/
def mkVal (neg : Bool) (iv fv fc ev : Nat) (eneg : Bool) : PyVal :=
  let mant : ℚ := (iv : ℚ) + (fv : ℚ) / (10 : ℚ) ^ fc
  let mag : ℚ := if eneg then mant / (10 : ℚ) ^ ev else mant * (10 : ℚ) ^ ev
  .fin (if neg then -mag else mag)

/-- Parse the numeric (non-special) body of a Python float literal:
`digits [. digits] [(e|E) [sign] digits]`, requiring at least one digit in
the mantissa and at least one digit in an exponent. -/
def parseNumeric (neg : Bool) (l : List Char) : Option PyVal :=
  let p1 := digitsAux 0 0 l
  let iv := p1.1
  let ic := p1.2.1
  let p2 :=
    match p1.2.2 with
    | '.' :: t => digitsAux 0 0 t
    | r => (0, 0, r)
  let fv := p2.1
  let fc := p2.2.1
  match p2.2.2 with
  | [] => if ic + fc = 0 then none else some (mkVal neg iv fv fc 0 false)
  | e :: t =>
      if (e = 'e' ∨ e = 'E') ∧ ic + fc ≠ 0 then
        let st :=
          match t with
          | '+' :: t2 => (false, t2)
          | '-' :: t2 => (true, t2)
          | _ => (false, t)
        let p3 := digitsAux 0 0 st.2
        if p3.2.1 = 0 ∨ p3.2.2 ≠ [] then none
        else some (mkVal neg iv fv fc p3.1 st.1)
      else none

/-- Python `float(chars)` on a character list: optional sign, then either a
special name (`inf`, `infinity`, `nan`, case-insensitive) or a numeric
literal. -/
def pyFloatChars (l : List Char) : Option PyVal :=
  let sl :=
    match l with
    | '+' :: t => (false, t)
    | '-' :: t => (true, t)
    | t => (false, t)
  let low := sl.2.map Char.toLower
  if low = ['i', 'n', 'f'] ∨ low = ['i', 'n', 'f', 'i', 'n', 'i', 't', 'y'] then
    some (.infv sl.1)
  else if low = ['n', 'a', 'n'] then some .nan
  else parseNumeric sl.1 sl.2

/-- Python `float(s)` on a string (whitespace never occurs in the inputs the
bot feeds it; see the header). -/
def pyFloat? (s : String) : Option PyVal := pyFloatChars s.toList

/-- Whether a parsed value is a finite strictly positive number (the
validation the specification claims; the code never performs it). -/
def isPosFinite : PyVal → Bool
  | .fin q => decide (0 < q)
  | _ => false

/-- Python's rendering of the float in the confirmation f-string. -/
def showPyVal : PyVal → String
  | .fin q => showAmount q
  | .infv b => if b then "-inf" else "inf"
  | .nan => "nan"

/-! ### The `/log` command and the `log_*` button branch -/

/-- The sender (`update.message.from_user` / `query.from_user`). -/
structure TgUser where
  id : Int
  username : String
deriving DecidableEq

/-- A row written by the log handlers, with the amount kept as the full
Python float value (so that non-finite parses are representable). -/
structure LogRecord where
  user_id : Int
  username : String
  amount : PyVal
  date : Int
deriving DecidableEq

/-- The usage hint replied on a bad `/log` invocation. -/
def usage : String := "Usage: /log <amount in liters>"

/-- The error text replied on a bad `log_*` button token. -/
def btnErr : String := "Error: could not parse water amount."

/-- The confirmation f-string `f"Logged {amount} liters for {user.username}."`. -/
def logMsg (v : PyVal) (u : TgUser) : String :=
  "Logged " ++ showPyVal v ++ " liters for " ++ u.username ++ "."

/-- `datetime.datetime.now()`: naive host-local time, i.e. current UTC time
shifted by the host's UTC offset. -/
def localNow (utc off : Int) : Int := utc + off

/-- Body of the `/log` command handler: parse `context.args[0]` with
`float`; on failure (missing or unparsable) reply the usage hint and write
nothing; on success insert a row with the parsed amount and `now`, and reply
the confirmation.  Returns the new table and the reply text. -/
def log_water (args : List String) (u : TgUser) (now : Int) (db : List LogRecord) :
    List LogRecord × String :=
  match args with
  | [] => (db, usage)
  | s :: _ =>
      match pyFloat? s with
      | none => (db, usage)
      | some v => (db ++ [⟨u.id, u.username, v, now⟩], logMsg v u)

/-- Python `str.split(sep)` for a one-character separator. -/
def splitOnChar (sep : Char) : List Char → List (List Char)
  | [] => [[]]
  | c :: cs =>
      if c = sep then [] :: splitOnChar sep cs
      else
        match splitOnChar sep cs with
        | [] => [[c]]
        | p :: ps => (c :: p) :: ps

/-- The `amount = float(data.split("_")[1])` step of the `log_*` button
branch; `none` models both `IndexError` and `ValueError` (caught together). -/
def btnParse (data : String) : Option PyVal :=
  match (splitOnChar '_' data.toList)[1]? with
  | none => none
  | some part => pyFloatChars part

/-- Body of the `data.startswith("log_")` branch of `button_handler`. -/
def button_log (data : String) (u : TgUser) (now : Int) (db : List LogRecord) :
    List LogRecord × String :=
  match btnParse data with
  | none => (db, btnErr)
  | some v => (db ++ [⟨u.id, u.username, v, now⟩], logMsg v u)

/-! ### Startup -/

/-- Observable outcome of `main()`: a fatal exit before any handler is
registered, or polling with the registered handler set. -/
inductive MainOutcome where
  | fatalExit (code : Nat) (loggedError : Bool)
  | runPolling (token : String) (handlers : List String)
deriving DecidableEq

/-- The handlers `main` registers before polling. -/
def registeredHandlers : List String :=
  ["start", "log", "leaderboard_daily", "leaderboard_weekly", "button_handler"]

/-- The `main()` function (the name `main` is reserved in Lean): read
`TELEGRAM_BOT_TOKEN`; if it is unset (or empty, since `if not token` is also
true for the empty string), log an error and `exit(1)` before building the
application; otherwise register the handlers and poll. -/
def mainStartup (getenv : String → Option String) : MainOutcome :=
  match getenv "TELEGRAM_BOT_TOKEN" with
  | none => .fatalExit 1 true
  | some t => if t = "" then .fatalExit 1 true else .runPolling t registeredHandlers

/-! ### Concrete data used to instantiate the theorems -/

/-- A sample table: user 1 logs 0.5 and 0.25, user 2 logs 1.0 (the
end-to-end scenario of the specification). -/
def dbEx : List ConsumptionRecord :=
  [⟨1, 1, "alice", 1/2, 10⟩, ⟨2, 2, "bob", 1, 20⟩, ⟨3, 1, "alice", 1/4, 30⟩]

/-- The leaderboard entry of user 1 in `dbEx`. -/
def eEx : LBEntry := ⟨1, "alice", 3/4⟩

/-- A sample table where one user appears under two different usernames. -/
def dbDup : List ConsumptionRecord :=
  [⟨1, 5, "alice", 1, 10⟩, ⟨2, 5, "alicia", 2, 20⟩]

/-- The first record of `dbDup`. -/
def recA : ConsumptionRecord := ⟨1, 5, "alice", 1, 10⟩

/-- The second record of `dbDup`. -/
def recB : ConsumptionRecord := ⟨2, 5, "alicia", 2, 20⟩

/-- A sample sender. -/
def uEx : TgUser := ⟨7, "alice"⟩

/-- An environment with no variables set. -/
def envNone : String → Option String := fun _ => none

/-- A Wednesday afternoon: day 2 of the Monday-based epoch, 123 µs in. -/
def wedNow : Int := 2 * 86400000000 + 123

/-! ### Lemmas about the grouping fold -/

theorem addToGroup_ids (acc : List LBEntry) (r : ConsumptionRecord) :
    (addToGroup acc r).map LBEntry.user_id =
      if r.user_id ∈ acc.map LBEntry.user_id then acc.map LBEntry.user_id
      else acc.map LBEntry.user_id ++ [r.user_id] := by
  induction acc with
  | nil => simp [addToGroup]
  | cons e es ih =>
      by_cases h : e.user_id = r.user_id
      · rw [if_pos (by simp [h.symm])]
        simp [addToGroup, h]
      · have h' : ¬ r.user_id = e.user_id := fun hh => h hh.symm
        by_cases hm : r.user_id ∈ es.map LBEntry.user_id
        · rw [if_pos (by simp [hm])]
          simp [addToGroup, h, ih, hm]
        · rw [if_neg (by simp [h', hm])]
          simp [addToGroup, h, ih, hm]

theorem mem_ids_addToGroup (acc : List LBEntry) (r : ConsumptionRecord) (u : Int) :
    u ∈ (addToGroup acc r).map LBEntry.user_id ↔
      u ∈ acc.map LBEntry.user_id ∨ u = r.user_id := by
  by_cases hm : r.user_id ∈ acc.map LBEntry.user_id
  · rw [addToGroup_ids, if_pos hm]
    constructor
    · exact Or.inl
    · rintro (h | rfl)
      · exact h
      · exact hm
  · rw [addToGroup_ids, if_neg hm]
    simp

theorem nodup_ids_addToGroup (acc : List LBEntry) (r : ConsumptionRecord)
    (h : (acc.map LBEntry.user_id).Nodup) :
    ((addToGroup acc r).map LBEntry.user_id).Nodup := by
  by_cases hm : r.user_id ∈ acc.map LBEntry.user_id
  · rw [addToGroup_ids, if_pos hm]
    exact h
  · rw [addToGroup_ids, if_neg hm]
    simp [List.nodup_append, h, hm]

theorem foldl_ids_mem (rs : List ConsumptionRecord) :
    ∀ (acc : List LBEntry) (u : Int),
      u ∈ (rs.foldl addToGroup acc).map LBEntry.user_id ↔
        u ∈ acc.map LBEntry.user_id ∨ u ∈ rs.map ConsumptionRecord.user_id := by
  induction rs with
  | nil => simp
  | cons r rs ih =>
      intro acc u
      simp only [List.foldl_cons, ih, mem_ids_addToGroup, List.map_cons, List.mem_cons]
      tauto

theorem foldl_ids_nodup (rs : List ConsumptionRecord) :
    ∀ acc : List LBEntry, (acc.map LBEntry.user_id).Nodup →
      ((rs.foldl addToGroup acc).map LBEntry.user_id).Nodup := by
  induction rs with
  | nil => exact fun _ h => h
  | cons r rs ih => exact fun acc h => ih _ (nodup_ids_addToGroup acc r h)

theorem groupByUser_ids_nodup (rs : List ConsumptionRecord) :
    ((groupByUser rs).map LBEntry.user_id).Nodup :=
  foldl_ids_nodup rs [] (by simp)

theorem groupByUser_ids_mem (rs : List ConsumptionRecord) (u : Int) :
    u ∈ (groupByUser rs).map LBEntry.user_id ↔ u ∈ rs.map ConsumptionRecord.user_id := by
  simpa [groupByUser] using foldl_ids_mem rs [] u

theorem totalOf_addToGroup (u : Int) (acc : List LBEntry) (r : ConsumptionRecord) :
    totalOf u (addToGroup acc r) = totalOf u acc + (if r.user_id = u then r.amount else 0) := by
  induction acc with
  | nil => by_cases h : r.user_id = u <;> simp [addToGroup, totalOf, h]
  | cons e es ih =>
      by_cases h : e.user_id = r.user_id
      · by_cases hu : e.user_id = u
        · have hr : r.user_id = u := h.symm.trans hu
          simp only [addToGroup, if_pos h, totalOf, if_pos hu, if_pos hr]
          ring
        · have hr : ¬ r.user_id = u := fun hh => hu (h.trans hh)
          simp [addToGroup, h, totalOf, hu, hr]
      · simp only [addToGroup, if_neg h, totalOf, ih]
        by_cases hu : e.user_id = u <;> (simp [hu]; try ring)

theorem totalOf_foldl (u : Int) (rs : List ConsumptionRecord) :
    ∀ acc : List LBEntry,
      totalOf u (rs.foldl addToGroup acc) = totalOf u acc + sumAmounts u rs := by
  induction rs with
  | nil => simp [sumAmounts]
  | cons r rs ih =>
      intro acc
      simp only [List.foldl_cons, ih, totalOf_addToGroup, sumAmounts]
      ring

theorem totalOf_groupByUser (u : Int) (rs : List ConsumptionRecord) :
    totalOf u (groupByUser rs) = sumAmounts u rs := by
  simpa [groupByUser, totalOf] using totalOf_foldl u rs []

theorem totalOf_eq_zero (u : Int) (es : List LBEntry)
    (h : u ∉ es.map LBEntry.user_id) : totalOf u es = 0 := by
  induction es with
  | nil => rfl
  | cons e es ih =>
      simp only [List.map_cons, List.mem_cons, not_or] at h
      have he : ¬ e.user_id = u := fun hh => h.1 hh.symm
      simp [totalOf, he, ih h.2]

theorem totalOf_eq_of_mem {es : List LBEntry} (hnd : (es.map LBEntry.user_id).Nodup)
    {e : LBEntry} (he : e ∈ es) : totalOf e.user_id es = e.total := by
  induction es with
  | nil => cases he
  | cons a es ih =>
      simp only [List.map_cons, List.nodup_cons] at hnd
      rcases List.mem_cons.mp he with rfl | hmem
      · simp [totalOf, totalOf_eq_zero _ _ hnd.1]
      · have hne : ¬ a.user_id = e.user_id := fun hh =>
          hnd.1 (hh ▸ List.mem_map_of_mem LBEntry.user_id hmem)
        simp [totalOf, hne, ih hnd.2 hmem]

theorem filter_id_length_one {es : List LBEntry} (hnd : (es.map LBEntry.user_id).Nodup)
    {u : Int} (hu : u ∈ es.map LBEntry.user_id) :
    (es.filter (fun e => decide (e.user_id = u))).length = 1 := by
  induction es with
  | nil => simp at hu
  | cons a es ih =>
      simp only [List.map_cons, List.nodup_cons] at hnd
      simp only [List.map_cons, List.mem_cons] at hu
      by_cases h : a.user_id = u
      · have hnil : es.filter (fun e => decide (e.user_id = u)) = [] := by
          rw [List.filter_eq_nil_iff]
          intro e hmem
          simp only [decide_eq_true_eq]
          intro hh
          exact hnd.1 (h ▸ hh ▸ List.mem_map_of_mem LBEntry.user_id hmem)
        simp [List.filter_cons, h, hnil]
      · have hu' : u ∈ es.map LBEntry.user_id := by
          rcases hu with h1 | h1
          · exact absurd h1.symm h
          · exact h1
        simp [List.filter_cons, h, ih hnd.2 hu']

theorem mem_addToGroup_names (acc : List LBEntry) (r : ConsumptionRecord) :
    ∀ e ∈ addToGroup acc r,
      (∃ a ∈ acc, e.user_id = a.user_id ∧ e.username = a.username) ∨
        (e.user_id = r.user_id ∧ e.username = r.username) := by
  induction acc with
  | nil =>
      intro e he
      simp only [addToGroup, List.mem_singleton] at he
      subst he
      exact Or.inr ⟨rfl, rfl⟩
  | cons a es ih =>
      intro e he
      by_cases h : a.user_id = r.user_id
      · simp only [addToGroup, if_pos h] at he
        rcases List.mem_cons.mp he with rfl | hm
        · exact Or.inl ⟨a, List.mem_cons_self a es, rfl, rfl⟩
        · exact Or.inl ⟨e, List.mem_cons_of_mem a hm, rfl, rfl⟩
      · simp only [addToGroup, if_neg h] at he
        rcases List.mem_cons.mp he with rfl | hm
        · exact Or.inl ⟨e, List.mem_cons_self e es, rfl, rfl⟩
        · rcases ih e hm with ⟨a', ha', h1, h2⟩ | hr
          · exact Or.inl ⟨a', List.mem_cons_of_mem a ha', h1, h2⟩
          · exact Or.inr hr

theorem mem_foldl_names (rs : List ConsumptionRecord) :
    ∀ acc : List LBEntry, ∀ e ∈ rs.foldl addToGroup acc,
      (∃ a ∈ acc, e.user_id = a.user_id ∧ e.username = a.username) ∨
        (∃ r ∈ rs, e.user_id = r.user_id ∧ e.username = r.username) := by
  induction rs with
  | nil => exact fun acc e he => Or.inl ⟨e, he, rfl, rfl⟩
  | cons r rs ih =>
      intro acc e he
      rcases ih (addToGroup acc r) e he with ⟨a, ha, h1, h2⟩ | ⟨r', hr', h1, h2⟩
      · rcases mem_addToGroup_names acc r a ha with ⟨a', ha', g1, g2⟩ | ⟨g1, g2⟩
        · exact Or.inl ⟨a', ha', h1.trans g1, h2.trans g2⟩
        · exact Or.inr ⟨r, List.mem_cons_self r rs, h1.trans g1, h2.trans g2⟩
      · exact Or.inr ⟨r', List.mem_cons_of_mem r hr', h1, h2⟩

theorem mem_groupByUser_names (rs : List ConsumptionRecord) {e : LBEntry}
    (he : e ∈ groupByUser rs) :
    ∃ r ∈ rs, e.user_id = r.user_id ∧ e.username = r.username := by
  rcases mem_foldl_names rs [] e he with ⟨a, ha, _⟩ | hr
  · simp at ha
  · exact hr

theorem groupByUser_length (rs : List ConsumptionRecord) :
    (groupByUser rs).length = (rs.map ConsumptionRecord.user_id).dedup.length := by
  have h1 : ((groupByUser rs).map LBEntry.user_id).Nodup := groupByUser_ids_nodup rs
  have h2 : (rs.map ConsumptionRecord.user_id).dedup.Nodup := List.nodup_dedup _
  have hperm : List.Perm ((groupByUser rs).map LBEntry.user_id)
      ((rs.map ConsumptionRecord.user_id).dedup) := by
    rw [List.perm_ext_iff_of_nodup h1 h2]
    intro u
    rw [List.mem_dedup]
    exact groupByUser_ids_mem rs u
  calc (groupByUser rs).length
      = ((groupByUser rs).map LBEntry.user_id).length := (List.length_map _ _).symm
    _ = (rs.map ConsumptionRecord.user_id).dedup.length := hperm.length_eq

theorem lbLines_eq (l : List LBEntry) : ∀ n : Nat,
    lbLines n l = strConcat (List.zipWith lineFor (List.range' n l.length) l) := by
  induction l with
  | nil => intro n; rfl
  | cons e es ih =>
      intro n
      simp only [lbLines, List.length_cons, List.range', List.zipWith, strConcat, ih]

theorem inWindow_iff (lo hi t : Int) : inWindow lo hi t = true ↔ lo ≤ t ∧ t ≤ hi := by
  simp [inWindow]

theorem inWindow_false_iff (lo hi t : Int) : inWindow lo hi t = false ↔ t < lo ∨ hi < t := by
  simp [inWindow]
  omega

theorem renderBoard_ne_empty (results : List LBEntry) (hdr emp : String)
    (hh : hdr.length ≠ 0) (he : emp.length ≠ 0) : renderBoard results hdr emp ≠ "" := by
  cases results with
  | nil =>
      rw [renderBoard, if_pos rfl]
      intro hq
      exact he (hq ▸ rfl)
  | cons e es =>
      rw [renderBoard, if_neg (by simp)]
      intro hq
      have hl := congrArg String.length hq
      rw [String.length_append] at hl
      have h0 : ("" : String).length = 0 := rfl
      rw [h0] at hl
      omega

/-! ### The claims -/

/-- C1: for any table and window, the leaderboard query returns exactly one
entry per distinct `user_id` among the in-window records, each entry's total
is the sum of that user's amounts in the window, and the output is sorted
non-increasingly by total. -/
theorem leaderboard_rank_spec (db : List ConsumptionRecord) (lo hi : Int) :
    (sqlLeaderboard db lo hi).length
        = ((windowRecords db lo hi).map ConsumptionRecord.user_id).dedup.length
    ∧ (∀ e ∈ sqlLeaderboard db lo hi,
        e.total = sumAmounts e.user_id (windowRecords db lo hi))
    ∧ List.Sorted byTotalDesc (sqlLeaderboard db lo hi) := by
  refine ⟨?_, ?_, List.sorted_insertionSort byTotalDesc _⟩
  · rw [sqlLeaderboard, (List.perm_insertionSort byTotalDesc _).length_eq]
    exact groupByUser_length _
  · intro e he
    rw [sqlLeaderboard, List.mem_insertionSort] at he
    exact (totalOf_eq_of_mem (groupByUser_ids_nodup _) he).symm.trans (totalOf_groupByUser _ _)

/-- Witness for C1 at the specification's end-to-end example (user 1 logs
0.5 and 0.25, user 2 logs 1.0). -/
theorem leaderboard_rank_spec_witness :
    eEx ∈ sqlLeaderboard dbEx 0 100
    ∧ eEx.total = sumAmounts eEx.user_id (windowRecords dbEx 0 100) :=
  ⟨by with_unfolding_all decide,
    (leaderboard_rank_spec dbEx 0 100).2.1 eEx (by with_unfolding_all decide)⟩

/-- C10: aggregation groups by `user_id`, not by username: when one user has
in-window records under two different usernames, the leaderboard has exactly
one entry for that user, its total sums all of the user's amounts, and its
label is one of the stored usernames of that user. -/
theorem leaderboard_groups_by_user_id (db : List ConsumptionRecord) (lo hi : Int)
    (r1 r2 : ConsumptionRecord) (h1 : r1 ∈ windowRecords db lo hi)
    (_h2 : r2 ∈ windowRecords db lo hi) (_hid : r2.user_id = r1.user_id)
    (_hname : r1.username ≠ r2.username) :
    ((sqlLeaderboard db lo hi).filter (fun e => decide (e.user_id = r1.user_id))).length = 1
    ∧ ∀ e ∈ sqlLeaderboard db lo hi, e.user_id = r1.user_id →
        e.total = sumAmounts r1.user_id (windowRecords db lo hi)
        ∧ e.username ∈ ((windowRecords db lo hi).filter
            (fun r => decide (r.user_id = r1.user_id))).map ConsumptionRecord.username := by
  constructor
  · have hperm : List.Perm (sqlLeaderboard db lo hi) (groupByUser (windowRecords db lo hi)) :=
      List.perm_insertionSort byTotalDesc _
    rw [(hperm.filter _).length_eq]
    apply filter_id_length_one (groupByUser_ids_nodup _)
    rw [groupByUser_ids_mem]
    exact List.mem_map_of_mem ConsumptionRecord.user_id h1
  · intro e he heq
    rw [sqlLeaderboard, List.mem_insertionSort] at he
    constructor
    · have ht := (totalOf_eq_of_mem (groupByUser_ids_nodup _) he).symm.trans
        (totalOf_groupByUser _ _)
      exact heq ▸ ht
    · rcases mem_groupByUser_names _ he with ⟨r, hr, g1, g2⟩
      refine List.mem_map.mpr ⟨r, ?_, g2.symm⟩
      rw [List.mem_filter]
      exact ⟨hr, by simp [g1.symm.trans heq]⟩

/-- Witness for C10: user 5 logs 1.0 as "alice" and 2.0 as "alicia". -/
theorem leaderboard_groups_by_user_id_witness :
    ((sqlLeaderboard dbDup 0 100).filter
        (fun e => decide (e.user_id = recA.user_id))).length = 1 :=
  (leaderboard_groups_by_user_id dbDup 0 100 recA recB
    (by with_unfolding_all decide) (by with_unfolding_all decide)
    (by with_unfolding_all decide) (by with_unfolding_all decide)).1

/-- C9: the button branches and the command handlers compute the same
window, run the same query and format identically, so the texts coincide for
every table state and call time. -/
theorem button_command_same_text (db : List ConsumptionRecord) (now : Int) :
    button_lb_daily db now = leaderboard_daily db now
    ∧ button_lb_weekly db now = leaderboard_weekly db now :=
  ⟨rfl, rfl⟩

/-- C5: for every call time, the weekly window runs from the most recent
Monday at or before today at 00:00:00 (the start day has weekday 0, is at
or before today, and no later Monday is) through the end of today; anchored
on a Wednesday it starts on the preceding Monday (two days earlier) and
excludes every timestamp on the prior Sunday (three days earlier). -/
theorem weekly_window_spec (now : Int) :
    weekday (dateOf now - weekday (dateOf now)) = 0
    ∧ dateOf now - weekday (dateOf now) ≤ dateOf now
    ∧ (∀ d : Int, weekday d = 0 → d ≤ dateOf now → d ≤ dateOf now - weekday (dateOf now))
    ∧ weeklyLo now = dayStartUs (dateOf now - weekday (dateOf now))
    ∧ weeklyHi now = dayEndUs (dateOf now)
    ∧ (∀ t : Int, weeklyLo now ≤ t → t ≤ weeklyHi now →
        inWindow (weeklyLo now) (weeklyHi now) t = true)
    ∧ (weekday (dateOf now) = 2 →
        weeklyLo now = dayStartUs (dateOf now - 2)
        ∧ ∀ t : Int, dateOf t = dateOf now - 3 →
            inWindow (weeklyLo now) (weeklyHi now) t = false)
    ∧ ∀ db : List ConsumptionRecord, leaderboard_weekly db now =
        renderBoard (sqlLeaderboard db (weeklyLo now) (weeklyHi now))
          "Weekly Leaderboard (since Monday):\n" "No water consumption logged this week." := by
  refine ⟨?_, ?_, ?_, rfl, rfl, ?_, fun hwed => ⟨?_, ?_⟩, fun db => rfl⟩
  · simp only [weekday]
    omega
  · simp only [weekday]
    omega
  · intro d hd hle
    simp only [weekday] at *
    omega
  · intro t h1 h2
    rw [inWindow_iff]
    exact ⟨h1, h2⟩
  · simp only [weeklyLo, hwed]
  · intro t ht
    rw [inWindow_false_iff]
    simp only [weeklyLo, weeklyHi, dayStartUs, dayEndUs, dateOf, weekday, usPerDay] at *
    omega

/-- Witness for C5 at a concrete Wednesday (day 2 of the Monday epoch),
discharging the Monday-maximality and Wednesday hypotheses. -/
theorem weekly_window_spec_witness :
    (dateOf wedNow - 9 ≤ dateOf wedNow - weekday (dateOf wedNow))
    ∧ weeklyLo wedNow = dayStartUs (dateOf wedNow - 2)
    ∧ inWindow (weeklyLo wedNow) (weeklyHi wedNow) (dayStartUs (dateOf wedNow - 3)) = false :=
  ⟨(weekly_window_spec wedNow).2.2.1 (dateOf wedNow - 9)
      (by with_unfolding_all decide) (by with_unfolding_all decide),
    ((weekly_window_spec wedNow).2.2.2.2.2.2.1 (by with_unfolding_all decide)).1,
    ((weekly_window_spec wedNow).2.2.2.2.2.2.1 (by with_unfolding_all decide)).2
      (dayStartUs (dateOf wedNow - 3)) (by with_unfolding_all decide)⟩

/-- C6: both windows include a record timestamped exactly at their start or
end instant and exclude timestamps one microsecond outside either bound;
the window filter is exactly the record filter the leaderboard query
aggregates over. -/
theorem window_boundary_spec (now : Int) :
    inWindow (dailyLo now) (dailyHi now) (dailyLo now) = true
    ∧ inWindow (dailyLo now) (dailyHi now) (dailyHi now) = true
    ∧ inWindow (dailyLo now) (dailyHi now) (dailyLo now - 1) = false
    ∧ inWindow (dailyLo now) (dailyHi now) (dailyHi now + 1) = false
    ∧ inWindow (weeklyLo now) (weeklyHi now) (weeklyLo now) = true
    ∧ inWindow (weeklyLo now) (weeklyHi now) (weeklyHi now) = true
    ∧ inWindow (weeklyLo now) (weeklyHi now) (weeklyLo now - 1) = false
    ∧ inWindow (weeklyLo now) (weeklyHi now) (weeklyHi now + 1) = false
    ∧ (∀ db : List ConsumptionRecord, sqlLeaderboard db (dailyLo now) (dailyHi now) =
        List.insertionSort byTotalDesc (groupByUser
          (db.filter (fun r => inWindow (dailyLo now) (dailyHi now) r.date))))
    ∧ ∀ db : List ConsumptionRecord, leaderboard_daily db now =
        renderBoard (sqlLeaderboard db (dailyLo now) (dailyHi now))
          "Daily Leaderboard:\n" "No water consumption logged today." := by
  refine ⟨?_, ?_, ?_, ?_, ?_, ?_, ?_, ?_, fun db => rfl, fun db => rfl⟩ <;>
    simp only [inWindow_iff, inWindow_false_iff, dailyLo, dailyHi, weeklyLo, weeklyHi,
      dayStartUs, dayEndUs, dateOf, weekday, usPerDay] <;>
    omega

/-- C7: the formatter is a pure function of the ranked list and the
window-specific texts; the empty list yields the fixed nothing-logged
sentence, a non-empty list yields the header followed by one line per entry
numbered from 1 in list order, and the output is never the empty string. -/
theorem renderBoard_spec (results : List LBEntry) (hdr emp : String) :
    renderBoard [] hdr emp = emp
    ∧ renderBoard results hdr emp =
        (if results = [] then emp
         else hdr ++ strConcat (List.zipWith lineFor (List.range' 1 results.length) results))
    ∧ renderBoard results "Daily Leaderboard:\n" "No water consumption logged today." ≠ ""
    ∧ renderBoard results "Weekly Leaderboard (since Monday):\n"
        "No water consumption logged this week." ≠ "" := by
  refine ⟨rfl, ?_, ?_, ?_⟩
  · rw [renderBoard]
    by_cases hres : results = []
    · rw [if_pos hres, if_pos hres]
    · rw [if_neg hres, if_neg hres, lbLines_eq]
  · exact renderBoard_ne_empty results _ _ (by decide) (by decide)
  · exact renderBoard_ne_empty results _ _ (by decide) (by decide)

/-- C8: when `TELEGRAM_BOT_TOKEN` is absent, `main` logs an error and exits
with status 1 before registering any handler or polling. -/
theorem missing_token_fatal (env : String → Option String)
    (h : env "TELEGRAM_BOT_TOKEN" = none) :
    mainStartup env = MainOutcome.fatalExit 1 true
    ∧ ∀ t hs, mainStartup env ≠ MainOutcome.runPolling t hs := by
  constructor
  · simp [mainStartup, h]
  · intro t hs
    simp [mainStartup, h]

/-- Witness for C8 in the empty environment. -/
theorem missing_token_fatal_witness :
    mainStartup envNone = MainOutcome.fatalExit 1 true :=
  (missing_token_fatal envNone rfl).1

/-- C2 (amended): on both the `/log` command and the `log_*` button branch a
record is written exactly when the raw argument parses under Python
`float`; the stored amount is the parsed value, whatever its sign or
finiteness; a non-parsing argument is rejected (usage hint on the command,
parse-error text on the button) with the store unchanged. -/
theorem log_parse_spec (s : String) (rest : List String) (data : String)
    (u : TgUser) (now : Int) (db : List LogRecord) :
    log_water [] u now db = (db, usage)
    ∧ (pyFloat? s = none → log_water (s :: rest) u now db = (db, usage))
    ∧ (∀ v, pyFloat? s = some v →
        log_water (s :: rest) u now db = (db ++ [⟨u.id, u.username, v, now⟩], logMsg v u))
    ∧ (btnParse data = none → button_log data u now db = (db, btnErr))
    ∧ (∀ v, btnParse data = some v →
        button_log data u now db = (db ++ [⟨u.id, u.username, v, now⟩], logMsg v u)) := by
  refine ⟨rfl, ?_, ?_, ?_, ?_⟩
  · intro h
    simp [log_water, h]
  · intro v h
    simp [log_water, h]
  · intro h
    simp [button_log, h]
  · intro v h
    simp [button_log, h]

/-- Witness for C2: `/log -1` parses and writes a record with amount -1. -/
theorem log_parse_spec_witness :
    log_water ["-1"] uEx 0 []
      = ([⟨uEx.id, uEx.username, PyVal.fin (-1), 0⟩], logMsg (PyVal.fin (-1)) uEx) :=
  (log_parse_spec "-1" [] "x" uEx 0 []).2.2.1 (PyVal.fin (-1)) (by with_unfolding_all decide)

/-- C2 counterexample: the argument `-1` parses, a record is written, and
its amount is not a finite positive number — the code never validates
positivity. -/
theorem log_validation_cex :
    (log_water ["-1"] uEx 0 []).1 = [⟨7, "alice", PyVal.fin (-1), 0⟩]
    ∧ isPosFinite (PyVal.fin (-1)) = false := by
  with_unfolding_all decide

/-- C3 (amended): on both log operations — the `/log` command and the
`log_*` button press — the stored `date` is `datetime.datetime.now()`, i.e.
the host-local current time; it equals the current UTC instant exactly when
the host UTC offset is zero. -/
theorem log_timestamp_local (s : String) (rest : List String) (v : PyVal)
    (data : String) (w : PyVal) (u : TgUser) (utc off : Int) (db : List LogRecord)
    (h : pyFloat? s = some v) (hb : btnParse data = some w) :
    ((log_water (s :: rest) u (localNow utc off) db).1.map LogRecord.date
        = db.map LogRecord.date ++ [localNow utc off])
    ∧ ((button_log data u (localNow utc off) db).1.map LogRecord.date
        = db.map LogRecord.date ++ [localNow utc off])
    ∧ (off = 0 → (log_water (s :: rest) u (localNow utc off) db).1.map LogRecord.date
        = db.map LogRecord.date ++ [utc])
    ∧ (off = 0 → (button_log data u (localNow utc off) db).1.map LogRecord.date
        = db.map LogRecord.date ++ [utc]) := by
  refine ⟨?_, ?_, ?_, ?_⟩
  · simp [log_water, h]
  · simp [button_log, hb]
  · intro h0
    simp [log_water, h, localNow, h0]
  · intro h0
    simp [button_log, hb, localNow, h0]

/-- Witness for C3 on a host whose clock offset is zero, for both paths. -/
theorem log_timestamp_local_witness :
    (log_water ["1"] uEx (localNow 5 0) []).1.map LogRecord.date = [localNow 5 0]
    ∧ (button_log "log_0.25" uEx (localNow 5 0) []).1.map LogRecord.date = [localNow 5 0] :=
  ⟨(log_timestamp_local "1" [] (PyVal.fin 1) "log_0.25" (PyVal.fin (1/4)) uEx 5 0 []
      (by with_unfolding_all decide) (by with_unfolding_all decide)).1,
    (log_timestamp_local "1" [] (PyVal.fin 1) "log_0.25" (PyVal.fin (1/4)) uEx 5 0 []
      (by with_unfolding_all decide) (by with_unfolding_all decide)).2.1⟩

/-- C3 counterexample: with current UTC time 0 on a host one hour east of
UTC, both the `/log` command and the `log_1.0` button store the timestamp
3600000000 µs — not the UTC time. -/
theorem log_timestamp_cex :
    (log_water ["1"] uEx (localNow 0 3600000000) []).1.map LogRecord.date = [3600000000]
    ∧ (button_log "log_1.0" uEx (localNow 0 3600000000) []).1.map LogRecord.date = [3600000000]
    ∧ (3600000000 : Int) ≠ 0 := by
  with_unfolding_all decide

/-- C4: a `/log` invocation whose argument is missing or fails to parse
writes nothing — the table is returned unchanged — and replies the usage
hint. -/
theorem log_invalid_unchanged (u : TgUser) (now : Int) (db : List LogRecord)
    (s : String) (rest : List String) (h : pyFloat? s = none) :
    log_water (s :: rest) u now db = (db, usage)
    ∧ log_water [] u now db = (db, usage) :=
  ⟨by simp [log_water, h], rfl⟩

/-- Witness for C4 at the non-numeric argument `abc`. -/
theorem log_invalid_unchanged_witness :
    log_water ["abc"] uEx 0 [] = ([], usage) :=
  (log_invalid_unchanged uEx 0 [] "abc" [] (by with_unfolding_all decide)).1

/-- Witness for C7: a one-entry board renders to a non-empty string. -/
theorem renderBoard_spec_witness :
    renderBoard [eEx] "Daily Leaderboard:\n" "No water consumption logged today." ≠ "" :=
  (renderBoard_spec [eEx] "" "").2.2.1
